import Mathlib

/-!
Verification development for the Janus Management Studio main process
(`main.js` and its full variant): credential vault, window-state store,
connection-manager facade, solution-path configuration and the recursive
source search.  JavaScript string primitives used by the code are modelled
by structural functions over character lists.
-/

namespace Janus

/-! ## Models of the JavaScript string primitives -/

/-- Boolean test that `n` begins the list `h` (model of JS `startsWith`). -/
def leadsWith : List Char → List Char → Bool
  | _, [] => true
  | [], _ :: _ => false
  | a :: as, b :: bs => a == b && leadsWith as bs

/-- Boolean test that `n` occurs contiguously inside `h` (model of JS
`String.includes`). -/
def hasRun : List Char → List Char → Bool
  | [], n => leadsWith [] n
  | a :: as, n => leadsWith (a :: as) n || hasRun as n

/-- JS `s.startsWith(p)`. -/
def jsStartsWith (s p : String) : Bool := leadsWith s.data p.data

/-- JS `s.endsWith(p)`. -/
def jsEndsWith (s p : String) : Bool := leadsWith s.data.reverse p.data.reverse

/-- JS `line.toLowerCase().includes(q.toLowerCase())`: the case-insensitive
substring test used by the search. -/
def jsIncludesCI (line q : String) : Bool :=
  hasRun (line.data.map Char.toLower) (q.data.map Char.toLower)

/-- JS `s.trim()`: whitespace removed from both ends. -/
def jsTrim (s : String) : String :=
  String.mk (((s.data.dropWhile Char.isWhitespace).reverse.dropWhile
    Char.isWhitespace).reverse)

/-- JS `content.split('\n')`: auxiliary accumulator recursion. -/
def splitLinesAux : List Char → List Char → List String
  | [], acc => [String.mk acc.reverse]
  | c :: cs, acc =>
    if c = '\n' then String.mk acc.reverse :: splitLinesAux cs []
    else splitLinesAux cs (c :: acc)

/-- JS `content.split('\n')`. -/
def jsSplitLines (s : String) : List String := splitLinesAux s.data []

/-- `path.join(dir, name)`, modelled as slash concatenation. -/
def jsPathJoin (dir name : String) : String := dir ++ "/" ++ name

theorem leadsWith_iff (h n : List Char) :
    leadsWith h n = true ↔ ∃ t, h = n ++ t := by
  induction n generalizing h with
  | nil => simp [leadsWith]
  | cons b bs ih =>
    cases h with
    | nil => simp [leadsWith]
    | cons a as =>
      simp only [leadsWith, Bool.and_eq_true, beq_iff_eq, ih, List.cons_append,
        List.cons.injEq]
      constructor
      · rintro ⟨rfl, t, rfl⟩
        exact ⟨t, rfl, rfl⟩
      · rintro ⟨t, rfl, rfl⟩
        exact ⟨rfl, t, rfl⟩

theorem hasRun_iff (h n : List Char) :
    hasRun h n = true ↔ ∃ p t, h = p ++ n ++ t := by
  induction h with
  | nil =>
    simp only [hasRun, leadsWith_iff]
    constructor
    · rintro ⟨t, ht⟩
      exact ⟨[], t, ht⟩
    · rintro ⟨p, t, ht⟩
      rcases List.append_eq_nil.mp ht.symm with ⟨h1, rfl⟩
      rcases List.append_eq_nil.mp h1 with ⟨rfl, rfl⟩
      exact ⟨[], rfl⟩
  | cons a as ih =>
    simp only [hasRun, Bool.or_eq_true, leadsWith_iff, ih]
    constructor
    · rintro (⟨t, ht⟩ | ⟨p, t, ht⟩)
      · exact ⟨[], t, by simpa using ht⟩
      · exact ⟨a :: p, t, by simp [ht]⟩
    · rintro ⟨p, t, ht⟩
      cases p with
      | nil => exact Or.inl ⟨t, by simpa using ht⟩
      | cons x xs =>
        simp only [List.cons_append, List.cons.injEq] at ht
        exact Or.inr ⟨xs, t, ht.2⟩

/-! ## Credential vault (`connect-database` save step, `load-credentials`,
`clear-credentials`) -/

/-- StoredCredentials record: server, database, username, password. -/
structure Credentials where
  server : String
  database : String
  username : String
  password : String
deriving DecidableEq, Repr

/-- Model of the external platform collaborators the vault delegates to:
the platform encryption primitive (Electron `safeStorage`) and the JSON
codec applied to the credential record.  Both are external libraries,
out of scope per the spec, so handlers are parameterised over them and
theorems assume only the round-trip facts the spec grants them. -/
structure Platform where
  encAvailable : Bool
  encryptString : String → String
  decryptString : String → Option String
  credStringify : Credentials → String
  credParse : String → Option Credentials

/-- Credential-save step of `connect-database` (main.js lines 125-134):
write the encrypted serialisation only when saving was requested and
platform encryption is available, else leave the file untouched. -/
def storeCredentials (P : Platform) (saveCredentials : Bool) (c : Credentials)
    (file : Option String) : Option String :=
  if saveCredentials && P.encAvailable then
    some (P.encryptString (P.credStringify c))
  else file

/-- `load-credentials` handler (main.js lines 188-199): decrypt and parse
when the file exists and encryption is available; any failure yields
`none`. -/
def loadCredentials (P : Platform) (file : Option String) : Option Credentials :=
  match file with
  | none => none
  | some enc =>
    if P.encAvailable then
      match P.decryptString enc with
      | none => none
      | some s => P.credParse s
    else none

/-- Result shape of `clear-credentials`. -/
structure ClearResult where
  success : Bool
  error : Option String
deriving DecidableEq, Repr

/-- `clear-credentials` handler (main.js lines 202-211).  `unlinkError`
models the outcome of `fs.unlinkSync`: `none` means the OS delete
succeeds, `some e` means it throws with message `e`.  Returns the new
file state and the handler result. -/
def clearCredentials (unlinkError : Option String) (file : Option String) :
    Option String × ClearResult :=
  match file with
  | none => (none, ⟨true, none⟩)
  | some c =>
    match unlinkError with
    | none => (none, ⟨true, none⟩)
    | some e => (some c, ⟨false, some e⟩)

/-- Concrete instance of the external platform collaborators, used only to
witness that the round-trip hypotheses of the vault theorems are
satisfiable: a tagging cipher and a newline-separated record codec. -/
def concretePlatform : Platform where
  encAvailable := true
  encryptString := fun s => String.mk ('#' :: s.data)
  decryptString := fun s =>
    match s.data with
    | '#' :: rest => some (String.mk rest)
    | _ => none
  credStringify := fun c =>
    c.server ++ "\n" ++ c.database ++ "\n" ++ c.username ++ "\n" ++ c.password
  credParse := fun s =>
    match splitLinesAux s.data [] with
    | [a, b, u, p] => some ⟨a, b, u, p⟩
    | _ => none

/-! ## Solution-path configuration (`load-solution-path`) -/

/-- Result shape of `load-solution-path`. -/
structure SolutionPathResult where
  success : Bool
  path : String
deriving DecidableEq, Repr

/-- JS `v || ''` for an optional string field: the empty string is falsy. -/
def jsOrEmptyString (v : Option String) : String :=
  match v with
  | none => ""
  | some p => if p = "" then "" else p

/-- `load-solution-path` handler (part_001 lines 301-311).  The config file
state is `none` when missing or unreadable, `some none` when it reads but
fails to parse as JSON, and `some (some cfg)` when parsed, where `cfg` is
the optional `solutionPath` field.  Read or parse failures land in the
catch block, which still reports success with an empty path. -/
def loadSolutionPath (file : Option (Option (Option String))) : SolutionPathResult :=
  match file with
  | some (some cfg) => ⟨true, jsOrEmptyString cfg⟩
  | _ => ⟨true, ""⟩

/-! ## Window-state store (`loadWindowState`, main.js lines 47-78) -/

/-- Persisted window bounds. -/
structure WindowState where
  x : Int
  y : Int
  width : Int
  height : Int
deriving DecidableEq, Repr

/-- A display, given by the rectangle of its bounds. -/
structure Display where
  x : Int
  y : Int
  width : Int
  height : Int
deriving DecidableEq, Repr

/-- The origin-validity test of `loadWindowState` (main.js lines 54-59):
origin-inclusive, far-edge-exclusive on both axes. -/
def stateOnDisplay (s : WindowState) (d : Display) : Bool :=
  decide (s.x ≥ d.x) && decide (s.x < d.x + d.width) &&
  decide (s.y ≥ d.y) && decide (s.y < d.y + d.height)

/-- `Math.round(n / 2)` for an integer `n`: floor of `(n + 1) / 2`. -/
def mathRoundHalf (n : Int) : Int := Int.fdiv (n + 1) 2

/-- The default geometry (main.js lines 70-77): 450 by 600, centred on the
primary display work area `(w, h)`. -/
def defaultWindowState (workArea : Int × Int) : WindowState :=
  ⟨mathRoundHalf (workArea.1 - 450), mathRoundHalf (workArea.2 - 600), 450, 600⟩

/-- `loadWindowState` (main.js lines 47-78).  The state file is `none` when
missing, `some none` when it exists but reading or JSON parsing throws,
and `some (some s)` when it parses to bounds `s`.  `displays` is the list
of currently attached displays and `workArea` the primary display work
area size. -/
def loadWindowState (file : Option (Option WindowState)) (displays : List Display)
    (workArea : Int × Int) : WindowState :=
  match file with
  | some (some s) =>
    match displays.find? (fun d => stateOnDisplay s d) with
    | some _ => s
    | none => defaultWindowState workArea
  | _ => defaultWindowState workArea

/-! ## Connection manager (`connect-database`, `execute-query`,
window-all-closed) -/

/-- Tenant context record. -/
structure Tenant where
  id : Int
  name : String
deriving DecidableEq, Repr

/-- Main-process mutable state: the `dbConnection` variable (holding a
driver handle id or null), the set of driver-side handles that are open
and not yet closed, a freshness counter for new handles, and the
`currentDatabase`, `currentTenant` and credentials-file state. -/
structure MState where
  dbConnection : Option Nat
  openHandles : List Nat
  nextHandle : Nat
  currentDatabase : Option String
  currentTenant : Option Tenant
  credFile : Option String
deriving DecidableEq, Repr

/-- Initial state of the main process (main.js lines 8-11). -/
def initState : MState := ⟨none, [], 0, none, none, none⟩

/-- Connection config passed by the renderer. -/
structure ConnectConfig where
  server : String
  database : String
  username : String
  password : String
  saveCredentials : Bool
deriving DecidableEq, Repr

/-- Result shape of `connect-database`. -/
structure ConnectResult where
  success : Bool
  database : Option String
  error : Option String
deriving DecidableEq, Repr

/-- `connect-database` handler (main.js lines 101-140).  The external
driver call `sql.connect` is modelled by its outcome: when `driverOk` it
yields a fresh handle, otherwise it throws with message `errMsg`.  An
open connection is closed before the driver is called; on driver failure
the catch block returns the message and no assignment after the call has
happened, so `dbConnection` keeps its old (now closed) value. -/
def connectDatabase (P : Platform) (driverOk : Bool) (errMsg : String)
    (config : ConnectConfig) (st : MState) : MState × ConnectResult :=
  let afterClose : MState :=
    match st.dbConnection with
    | some h => { st with openHandles := st.openHandles.erase h }
    | none => st
  if driverOk then
    let h := afterClose.nextHandle
    let display := config.server ++ "\\" ++ config.database
    ({ afterClose with
        dbConnection := some h
        openHandles := h :: afterClose.openHandles
        nextHandle := afterClose.nextHandle + 1
        currentDatabase := some display
        currentTenant := some ⟨1, "Default Tenant"⟩
        credFile := storeCredentials P config.saveCredentials
          ⟨config.server, config.database, config.username, config.password⟩
          afterClose.credFile },
     ⟨true, some display, none⟩)
  else
    (afterClose, ⟨false, none, some errMsg⟩)

/-- Result shape of `execute-query`; rows are kept opaque. -/
structure QueryResult where
  success : Bool
  data : Option (List (List String))
  error : Option String
deriving DecidableEq, Repr

/-- `execute-query` handler (main.js lines 143-162).  The driver call is
modelled by its outcome `driverResult`.  The third component records
whether the driver was invoked at all.  With no open connection the
handler throws `No database connection` into its own catch block and
returns that message without touching the driver. -/
def executeQuery (driverResult : Except String (List (List String)))
    (st : MState) (query : String) : MState × QueryResult × Bool :=
  match st.dbConnection with
  | none => (st, ⟨false, none, some "No database connection"⟩, false)
  | some _ =>
    match driverResult with
    | Except.ok rows => (st, ⟨true, some rows, none⟩, true)
    | Except.error e => (st, ⟨false, none, some e⟩, true)

/-- The window-all-closed shutdown step (main.js lines 91-98): closes the
open connection; the `dbConnection` variable is not nulled. -/
def disconnectOnClose (st : MState) : MState :=
  match st.dbConnection with
  | some h => { st with openHandles := st.openHandles.erase h }
  | none => st

/-- The state-mutating operations of the main process, with the outcomes
of external calls carried as data. -/
inductive Op where
  | connect (P : Platform) (driverOk : Bool) (errMsg : String) (config : ConnectConfig)
  | execute (driverResult : Except String (List (List String))) (query : String)
  | clearCreds (unlinkError : Option String)
  | close

/-- One step of the main process. -/
def step (st : MState) : Op → MState
  | .connect P ok e cfg => (connectDatabase P ok e cfg st).1
  | .execute r q => (executeQuery r st q).1
  | .clearCreds u => { st with credFile := (clearCredentials u st.credFile).1 }
  | .close => disconnectOnClose st

/-- Run a sequence of operations from a state. -/
def run (ops : List Op) (st : MState) : MState := ops.foldl step st

/-- Handle invariant: the open driver handles are at most the one handle
the `dbConnection` variable refers to, and every handle ever referenced is
below the freshness counter. -/
def HandleInv (st : MState) : Prop :=
  (st.openHandles = [] ∨
    ∃ h, st.dbConnection = some h ∧ st.openHandles = [h]) ∧
  (∀ h, st.dbConnection = some h → h < st.nextHandle)

theorem handleInv_init : HandleInv initState := by
  constructor
  · exact Or.inl rfl
  · intro h hh
    simp [initState] at hh

theorem handleInv_connect (P : Platform) (ok : Bool) (e : String)
    (cfg : ConnectConfig) (st : MState) (hinv : HandleInv st) :
    HandleInv (connectDatabase P ok e cfg st).1 := by
  obtain ⟨hopen, hfresh⟩ := hinv
  cases hdb : st.dbConnection with
  | none =>
    have h0 : st.openHandles = [] := by
      rcases hopen with h0 | ⟨h, hdb2, _⟩
      · exact h0
      · rw [hdb] at hdb2; cases hdb2
    cases ok with
    | true =>
      refine ⟨Or.inr ⟨st.nextHandle, ?_, ?_⟩, ?_⟩
      · simp [connectDatabase, hdb]
      · simp [connectDatabase, hdb, h0]
      · intro h hh
        simp [connectDatabase, hdb] at hh ⊢
        omega
    | false =>
      refine ⟨Or.inl ?_, ?_⟩
      · simp [connectDatabase, hdb, h0]
      · intro h hh
        simp [connectDatabase, hdb] at hh
  | some x =>
    have herase : st.openHandles.erase x = [] := by
      rcases hopen with h0 | ⟨h, hdb2, hlist⟩
      · simp [h0]
      · rw [hdb] at hdb2
        cases hdb2
        simp [hlist]
    cases ok with
    | true =>
      refine ⟨Or.inr ⟨st.nextHandle, ?_, ?_⟩, ?_⟩
      · simp [connectDatabase, hdb]
      · simp [connectDatabase, hdb, herase]
      · intro h hh
        simp [connectDatabase, hdb] at hh ⊢
        omega
    | false =>
      refine ⟨Or.inl ?_, ?_⟩
      · simp [connectDatabase, hdb, herase]
      · intro h hh
        simp [connectDatabase, hdb] at hh ⊢
        subst hh
        exact hfresh x hdb

theorem executeQuery_state (r : Except String (List (List String)))
    (st : MState) (q : String) : (executeQuery r st q).1 = st := by
  cases hdb : st.dbConnection with
  | none => simp [executeQuery, hdb]
  | some x => cases r <;> simp [executeQuery, hdb]

theorem handleInv_step (st : MState) (op : Op) (hinv : HandleInv st) :
    HandleInv (step st op) := by
  obtain ⟨hopen, hfresh⟩ := hinv
  cases op with
  | connect P ok e cfg => exact handleInv_connect P ok e cfg st ⟨hopen, hfresh⟩
  | execute r q =>
    rw [show step st (Op.execute r q) = st from executeQuery_state r st q]
    exact ⟨hopen, hfresh⟩
  | clearCreds u =>
    exact ⟨hopen, hfresh⟩
  | close =>
    constructor
    · rcases hopen with h0 | ⟨h, hdb, hlist⟩
      · cases hdb : st.dbConnection with
        | none => exact Or.inl (by simpa [step, disconnectOnClose, hdb] using h0)
        | some x => exact Or.inl (by simp [step, disconnectOnClose, hdb, h0])
      · exact Or.inl (by simp [step, disconnectOnClose, hdb, hlist, List.erase_cons])
    · intro h hh
      cases hdb : st.dbConnection with
      | none => simp [step, disconnectOnClose, hdb] at hh
      | some x =>
        simp only [step, disconnectOnClose, hdb] at hh ⊢
        simp at hh
        subst hh
        exact hfresh x hdb

theorem handleInv_run (ops : List Op) (st : MState) (hinv : HandleInv st) :
    HandleInv (run ops st) := by
  induction ops generalizing st with
  | nil => simpa [run] using hinv
  | cons op ops ih =>
    have h1 : HandleInv (step st op) := handleInv_step st op hinv
    simpa [run, List.foldl_cons] using ih (step st op) h1

theorem handleInv_length (st : MState) (hinv : HandleInv st) :
    st.openHandles.length ≤ 1 := by
  rcases hinv.1 with h0 | ⟨h, _, hlist⟩
  · simp [h0]
  · simp [hlist]

/-! ## Source search (`search-source-files`, part_001 lines 323-375) -/

/-- One line of a context window. -/
structure ContextLine where
  lineNumber : Nat
  content : String
  isMatch : Bool
deriving DecidableEq, Repr

/-- One search result. -/
structure SearchMatch where
  file : String
  line : Nat
  content : String
  context : List ContextLine
deriving DecidableEq, Repr

/-- JS `l.slice(s, e)` for nonnegative clamped indices. -/
def jsSlice (l : List α) (s e : Nat) : List α := (l.drop s).take (e - s)

/-- The context window built for a match at 0-based `index` (part_001
lines 354-358): `lines.slice(max 0 (index-2), index+3)`, each entry given
the 1-based line number `max 0 (index-2) + i + 1` and flagged
`isMatch := i == 2`.  Nat subtraction `index - 2` is exactly
`Math.max(0, index - 2)`. -/
def mkContext (lines : List String) (index : Nat) : List ContextLine :=
  (jsSlice lines (index - 2) (index + 3)).enum.map fun p =>
    ⟨index - 2 + p.1 + 1, jsTrim p.2, p.1 == 2⟩

/-- The `forEach((line, index) => ...)` of part_001 lines 348-361, walking
the remaining lines `rest` with `idx` the 0-based index of its head inside
the full list `lines`. -/
def lineMatchesFrom (filePath q : String) (lines : List String) :
    Nat → List String → List SearchMatch
  | _, [] => []
  | idx, line :: rest =>
    (if jsIncludesCI line q then
      [⟨filePath, idx + 1, jsTrim line, mkContext lines idx⟩]
    else []) ++ lineMatchesFrom filePath q lines (idx + 1) rest

/-- All matches recorded for one file with the given lines. -/
def lineMatches (filePath q : String) (lines : List String) : List SearchMatch :=
  lineMatchesFrom filePath q lines 0 lines

/-- A filesystem tree entry: a file with its text content, or a directory
with its listed entries. -/
inductive FSEntry where
  | file (name : String) (content : String)
  | dir (name : String) (entries : List FSEntry)

mutual
/-- Per-entry body of `searchInDirectory` (part_001 lines 337-366): recurse
into a directory unless its name starts with a dot or is exactly `bin` or
`obj`; otherwise, when the entry name ends in `.cs`, read and scan the
file.  A skipped directory falls into the read branch only if its name
ends in `.cs`, where reading a directory as a file throws and the entry
is skipped, so it contributes nothing either way. -/
def searchEntry (q dirPath : String) : FSEntry → List SearchMatch
  | .file name content =>
    if jsEndsWith name ".cs" then
      lineMatches (jsPathJoin dirPath name) q (jsSplitLines content)
    else []
  | .dir name entries =>
    if !jsStartsWith name "." && name ≠ "bin" && name ≠ "obj" then
      searchEntries q (jsPathJoin dirPath name) entries
    else []

/-- `searchInDirectory` over a directory listing, in listing order. -/
def searchEntries (q dirPath : String) : List FSEntry → List SearchMatch
  | [] => []
  | e :: es => searchEntry q dirPath e ++ searchEntries q dirPath es
end

/-- Result shape of `search-source-files`. -/
structure SearchResponse where
  success : Bool
  results : List SearchMatch
  error : Option String
deriving DecidableEq, Repr

/-- `search-source-files` handler (part_001 lines 323-375) for a readable
config: when the configured `solutionPath` is falsy the handler fails with
`Solution path not configured`; otherwise the whole tree rooted at the
path (whose listing is `entries`) is walked and the global result list is
truncated to 50 afterwards. -/
def searchSourceFiles (solutionPath : String) (entries : List FSEntry)
    (q : String) : SearchResponse :=
  if solutionPath = "" then
    ⟨false, [], some "Solution path not configured"⟩
  else
    ⟨true, (searchEntries q solutionPath entries).take 50, none⟩

theorem lineMatchesFrom_mem (filePath q : String) (lines : List String)
    (idx : Nat) (rest : List String) (m : SearchMatch) :
    m ∈ lineMatchesFrom filePath q lines idx rest ↔
      ∃ j line, rest.get? j = some line ∧ jsIncludesCI line q = true ∧
        m = ⟨filePath, idx + j + 1, jsTrim line, mkContext lines (idx + j)⟩ := by
  induction rest generalizing idx with
  | nil => simp [lineMatchesFrom]
  | cons line rest ih =>
    simp only [lineMatchesFrom, List.mem_append, ih]
    constructor
    · rintro (hm | ⟨j, l, hget, hq, rfl⟩)
      · rcases hq : jsIncludesCI line q with _ | _
        · simp [hq] at hm
        · simp [hq] at hm
          exact ⟨0, line, rfl, hq, by simpa using hm⟩
      · refine ⟨j + 1, l, by simpa using hget, hq, ?_⟩
        have he : idx + 1 + j = idx + (j + 1) := by omega
        rw [he]
    · rintro ⟨j, l, hget, hq, rfl⟩
      cases j with
      | zero =>
        left
        simp at hget
        subst hget
        simp [hq]
      | succ j =>
        right
        refine ⟨j, l, by simpa using hget, hq, ?_⟩
        have he : idx + (j + 1) = idx + 1 + j := by omega
        rw [he]

theorem lineMatches_line_iff (fp q : String) (lines : List String) (idx : Nat)
    (line : String) (hget : lines.get? idx = some line) :
    (∃ m ∈ lineMatches fp q lines, m.line = idx + 1) ↔
      jsIncludesCI line q = true := by
  constructor
  · rintro ⟨m, hm, hline⟩
    rw [lineMatches, lineMatchesFrom_mem] at hm
    obtain ⟨j, l, hg, hq, rfl⟩ := hm
    simp only [SearchMatch.mk.injEq] at hline ⊢
    have hj : j = idx := by omega
    subst hj
    have : l = line := Option.some.inj (hg.symm.trans hget)
    subst this
    exact hq
  · intro hq
    refine ⟨⟨fp, idx + 1, jsTrim line, mkContext lines idx⟩, ?_, rfl⟩
    rw [lineMatches, lineMatchesFrom_mem]
    exact ⟨idx, line, hget, hq, by simp⟩

theorem jsIncludesCI_iff (line q : String) :
    jsIncludesCI line q = true ↔
      ∃ p t, line.data.map Char.toLower =
        p ++ q.data.map Char.toLower ++ t := by
  simpa [jsIncludesCI] using
    hasRun_iff (line.data.map Char.toLower) (q.data.map Char.toLower)

/-- True when the operation list contains a connect whose driver call
succeeds. -/
def hasSuccessfulConnect (ops : List Op) : Bool :=
  ops.any fun op =>
    match op with
    | .connect _ ok _ _ => ok
    | _ => false

theorem run_no_connect_none (ops : List Op) (st : MState)
    (hops : hasSuccessfulConnect ops = false) (hdb : st.dbConnection = none) :
    (run ops st).dbConnection = none := by
  induction ops generalizing st with
  | nil => simpa [run] using hdb
  | cons op ops ih =>
    rw [show run (op :: ops) st = run ops (step st op) from rfl]
    have hops' := hops
    simp [hasSuccessfulConnect, List.any_cons] at hops'
    have hops2 : hasSuccessfulConnect ops = false := by
      simp [hasSuccessfulConnect]
      exact hops'.2
    refine ih (step st op) hops2 ?_
    cases op with
    | connect P ok e cfg =>
      have hok : ok = false := by simpa using hops'.1
      subst hok
      simp [step, connectDatabase, hdb]
    | execute r q => rw [show step st (Op.execute r q) = st from executeQuery_state r st q]; exact hdb
    | clearCreds u => simpa [step] using hdb
    | close => simp [step, disconnectOnClose, hdb]

/-! ## Claim theorems -/

/-- C1: code-side counterexample to the context-flag claim.  Searching for
`alpha` in a `.cs` file whose only matching line is the first line yields
the correct 1-based line number, trimmed content and clamped window, but
the window flags line 3 with `isMatch = true` and leaves the matching
line 1 flagged `false`: the flag always sits at window position 2, which
is not the matching line when the match lies on the first or second line
of the file. -/
theorem search_context_misflag_bug :
    lineMatches "a.cs" "alpha" ["alpha", "beta", "gamma"] =
      [⟨"a.cs", 1, "alpha",
        [⟨1, "alpha", false⟩, ⟨2, "beta", false⟩, ⟨3, "gamma", true⟩]⟩] := by
  decide

/-- C2: when platform encryption is available and the external cipher and
record codec invert on the stored record, storing the record and then
loading returns an equal record, while storing, then clearing (with the
OS delete succeeding), then loading returns none. -/
theorem credentials_roundtrip (P : Platform) (c : Credentials)
    (file : Option String)
    (hav : P.encAvailable = true)
    (hdec : P.decryptString (P.encryptString (P.credStringify c)) =
      some (P.credStringify c))
    (hparse : P.credParse (P.credStringify c) = some c) :
    loadCredentials P (storeCredentials P true c file) = some c ∧
    loadCredentials P
      (clearCredentials none (storeCredentials P true c file)).1 = none := by
  constructor
  · simp [storeCredentials, loadCredentials, hav, hdec, hparse]
  · simp [storeCredentials, loadCredentials, clearCredentials, hav]

/-- C2 witness: the round trip at a concrete platform and record. -/
theorem credentials_roundtrip_witness :
    concretePlatform.encAvailable = true ∧
    concretePlatform.decryptString (concretePlatform.encryptString
      (concretePlatform.credStringify ⟨"s", "d", "u", "p"⟩)) =
      some (concretePlatform.credStringify ⟨"s", "d", "u", "p"⟩) ∧
    concretePlatform.credParse
      (concretePlatform.credStringify ⟨"s", "d", "u", "p"⟩) =
      some ⟨"s", "d", "u", "p"⟩ ∧
    loadCredentials concretePlatform
      (storeCredentials concretePlatform true ⟨"s", "d", "u", "p"⟩ none) =
      some ⟨"s", "d", "u", "p"⟩ ∧
    loadCredentials concretePlatform
      (clearCredentials none (storeCredentials concretePlatform true
        ⟨"s", "d", "u", "p"⟩ none)).1 = none :=
  ⟨by decide, by decide, by decide,
    (credentials_roundtrip concretePlatform ⟨"s", "d", "u", "p"⟩ none rfl
      (by decide) (by decide)).1,
    (credentials_roundtrip concretePlatform ⟨"s", "d", "u", "p"⟩ none rfl
      (by decide) (by decide)).2⟩

/-- C3: `loadWindowState` returns the persisted bounds verbatim exactly
when the state file exists, parses, and the saved origin lies on some
attached display under the origin-inclusive, far-edge-exclusive test on
both axes; with no file, a parse failure, or an origin on no display it
returns the fixed 450 by 600 default centred on the primary work area,
never the stale value. -/
theorem loadWindowState_spec (file : Option (Option WindowState))
    (displays : List Display) (wa : Int × Int) :
    (∀ s, file = some (some s) →
      ((∃ d ∈ displays, stateOnDisplay s d = true) →
        loadWindowState file displays wa = s) ∧
      ((∀ d ∈ displays, stateOnDisplay s d = false) →
        loadWindowState file displays wa = defaultWindowState wa)) ∧
    ((∀ s, file ≠ some (some s)) →
      loadWindowState file displays wa = defaultWindowState wa) ∧
    (∀ s d, stateOnDisplay s d = true ↔
      (d.x ≤ s.x ∧ s.x < d.x + d.width ∧ d.y ≤ s.y ∧ s.y < d.y + d.height)) ∧
    (defaultWindowState wa).width = 450 ∧
    (defaultWindowState wa).height = 600 ∧
    (defaultWindowState wa).x = mathRoundHalf (wa.1 - 450) ∧
    (defaultWindowState wa).y = mathRoundHalf (wa.2 - 600) := by
  refine ⟨?_, ?_, ?_, rfl, rfl, rfl, rfl⟩
  · rintro s rfl
    constructor
    · intro hex
      have hsome : (displays.find? (fun d => stateOnDisplay s d)).isSome := by
        rw [List.find?_isSome]
        simpa using hex
      rcases hfind : displays.find? (fun d => stateOnDisplay s d) with _ | d
      · rw [hfind] at hsome; cases hsome
      · simp [loadWindowState, hfind]
    · intro hall
      have hnone : displays.find? (fun d => stateOnDisplay s d) = none := by
        rw [List.find?_eq_none]
        intro d hd
        simp [hall d hd]
      simp [loadWindowState, hnone]
  · intro hne
    rcases file with _ | f
    · rfl
    · rcases f with _ | s
      · rfl
      · exact absurd rfl (hne s)
  · intro s d
    simp [stateOnDisplay, and_assoc, ge_iff_le]

/-- C3 witness: a state on the sole display is returned verbatim; a state
with origin on no display yields the centred default. -/
theorem loadWindowState_spec_witness :
    loadWindowState (some (some ⟨10, 20, 800, 500⟩)) [⟨0, 0, 1920, 1080⟩]
      (1920, 1080) = ⟨10, 20, 800, 500⟩ ∧
    loadWindowState (some (some ⟨5000, 20, 800, 500⟩)) [⟨0, 0, 1920, 1080⟩]
      (1920, 1080) = defaultWindowState (1920, 1080) :=
  ⟨((loadWindowState_spec (some (some ⟨10, 20, 800, 500⟩)) [⟨0, 0, 1920, 1080⟩]
      (1920, 1080)).1 ⟨10, 20, 800, 500⟩ rfl).1 ⟨⟨0, 0, 1920, 1080⟩, by decide, by decide⟩,
   ((loadWindowState_spec (some (some ⟨5000, 20, 800, 500⟩)) [⟨0, 0, 1920, 1080⟩]
      (1920, 1080)).1 ⟨5000, 20, 800, 500⟩ rfl).2 (by decide)⟩

/-- C4: along every operation sequence from the initial state at most one
driver handle is live, and a connect issued while the referenced handle is
open leaves that handle closed after the call, whether or not the new
connection succeeds: no handle is leaked. -/
theorem connection_at_most_one_handle :
    (∀ ops, (run ops initState).openHandles.length ≤ 1) ∧
    (∀ ops P ok e cfg h,
      (run ops initState).dbConnection = some h →
      h ∉ (connectDatabase P ok e cfg (run ops initState)).1.openHandles) := by
  constructor
  · intro ops
    exact handleInv_length _ (handleInv_run ops initState handleInv_init)
  · intro ops P ok e cfg h hdb
    have hinv := handleInv_run ops initState handleInv_init
    have hfresh : h < (run ops initState).nextHandle := hinv.2 h hdb
    have herase : (run ops initState).openHandles.erase h = [] := by
      rcases hinv.1 with h0 | ⟨h2, hdb2, hlist⟩
      · simp [h0]
      · have : h2 = h := Option.some.inj (hdb2.symm.trans hdb)
        subst this
        simp [hlist]
    cases ok with
    | true =>
      simp [connectDatabase, hdb, herase]
      omega
    | false =>
      simp [connectDatabase, hdb, herase]

/-- C4 witness: after one successful connect the handle 0 is referenced,
a second connect leaves 0 closed, and at most one handle is ever open. -/
theorem connection_at_most_one_handle_witness :
    (run [Op.connect concretePlatform true "" ⟨"srv", "db", "u", "p", false⟩]
      initState).dbConnection = some 0 ∧
    0 ∉ (connectDatabase concretePlatform true ""
      ⟨"srv2", "db2", "u", "p", false⟩
      (run [Op.connect concretePlatform true "" ⟨"srv", "db", "u", "p", false⟩]
        initState)).1.openHandles ∧
    (run [Op.connect concretePlatform true "" ⟨"srv", "db", "u", "p", false⟩]
      initState).openHandles.length ≤ 1 :=
  ⟨by decide,
   connection_at_most_one_handle.2
     [Op.connect concretePlatform true "" ⟨"srv", "db", "u", "p", false⟩]
     concretePlatform true "" ⟨"srv2", "db2", "u", "p", false⟩ 0 (by decide),
   connection_at_most_one_handle.1
     [Op.connect concretePlatform true "" ⟨"srv", "db", "u", "p", false⟩]⟩

/-- C5: `execute-query` with no open connection returns the structured
failure carrying `No database connection` without invoking the driver,
and before any successful connect no connection is open. -/
theorem executeQuery_no_connection :
    (∀ st q r, st.dbConnection = none →
      executeQuery r st q =
        (st, ⟨false, none, some "No database connection"⟩, false)) ∧
    (∀ ops, hasSuccessfulConnect ops = false →
      (run ops initState).dbConnection = none) := by
  constructor
  · intro st q r hdb
    simp [executeQuery, hdb]
  · intro ops hops
    exact run_no_connect_none ops initState hops rfl

/-- C5 witness: after a failed connect attempt from the fresh process the
query still fails fast without reaching the driver. -/
theorem executeQuery_no_connection_witness :
    (run [Op.connect concretePlatform false "login failed"
        ⟨"srv", "db", "u", "p", false⟩] initState).dbConnection = none ∧
    executeQuery (Except.ok []) (run [Op.connect concretePlatform false
        "login failed" ⟨"srv", "db", "u", "p", false⟩] initState)
        "SELECT 1" =
      (run [Op.connect concretePlatform false "login failed"
        ⟨"srv", "db", "u", "p", false⟩] initState,
       ⟨false, none, some "No database connection"⟩, false) :=
  ⟨executeQuery_no_connection.2
     [Op.connect concretePlatform false "login failed" ⟨"srv", "db", "u", "p", false⟩]
     (by decide),
   executeQuery_no_connection.1
     (run [Op.connect concretePlatform false "login failed"
       ⟨"srv", "db", "u", "p", false⟩] initState) "SELECT 1" (Except.ok [])
     (executeQuery_no_connection.2
       [Op.connect concretePlatform false "login failed"
         ⟨"srv", "db", "u", "p", false⟩] (by decide))⟩

/-- C6: a connect whose driver call throws returns `success = false` with
the driver message verbatim, while `currentDatabase`, `currentTenant`,
the credentials file, the `dbConnection` variable and the handle counter
all keep their prior values; only the previously open handle has been
closed. -/
theorem connectDatabase_failure_frame (P : Platform) (e : String)
    (cfg : ConnectConfig) (st : MState) :
    (connectDatabase P false e cfg st).2 = ⟨false, none, some e⟩ ∧
    (connectDatabase P false e cfg st).1.currentDatabase = st.currentDatabase ∧
    (connectDatabase P false e cfg st).1.currentTenant = st.currentTenant ∧
    (connectDatabase P false e cfg st).1.credFile = st.credFile ∧
    (connectDatabase P false e cfg st).1.dbConnection = st.dbConnection ∧
    (connectDatabase P false e cfg st).1.nextHandle = st.nextHandle := by
  cases hdb : st.dbConnection <;> simp [connectDatabase, hdb]

/-- C7: with a configured solution path the whole tree is walked -- each
listing entry contributes its matches by concatenation, independent of
how many matches were already found -- and the global list is truncated
to the first 50 matches in traversal order only afterwards, so the
response never carries more than 50 entries. -/
theorem searchSourceFiles_cap (path : String) (entries : List FSEntry)
    (q : String) (hpath : path ≠ "") :
    (searchSourceFiles path entries q).results =
      (searchEntries q path entries).take 50 ∧
    (searchSourceFiles path entries q).results.length ≤ 50 ∧
    (∀ p e es, searchEntries q p (e :: es) =
      searchEntry q p e ++ searchEntries q p es) := by
  refine ⟨by simp [searchSourceFiles, hpath], ?_, fun p e es => rfl⟩
  simp [searchSourceFiles, hpath]

/-- C7 witness: a two-entry tree with a configured path. -/
theorem searchSourceFiles_cap_witness :
    (searchSourceFiles "root" [FSEntry.file "a.cs" "has needle",
      FSEntry.file "b.cs" "needle too"] "needle").results =
      (searchEntries "needle" "root" [FSEntry.file "a.cs" "has needle",
        FSEntry.file "b.cs" "needle too"]).take 50 ∧
    (searchSourceFiles "root" [FSEntry.file "a.cs" "has needle",
      FSEntry.file "b.cs" "needle too"] "needle").results.length ≤ 50 :=
  ⟨(searchSourceFiles_cap "root" [FSEntry.file "a.cs" "has needle",
      FSEntry.file "b.cs" "needle too"] "needle" (by decide)).1,
   (searchSourceFiles_cap "root" [FSEntry.file "a.cs" "has needle",
      FSEntry.file "b.cs" "needle too"] "needle" (by decide)).2.1⟩

/-- C8: a directory whose name starts with a dot or equals `bin` or `obj`
is not recursed into and contributes no match even if files below it
contain the query; an entry not ending in `.cs` contributes nothing; a
`.cs` file is scanned line by line, a line matching exactly when its
lower-cased text contains the lower-cased query as a contiguous run. -/
theorem search_skips_and_filters :
    (∀ q p name entries,
      (jsStartsWith name "." = true ∨ name = "bin" ∨ name = "obj") →
      searchEntry q p (.dir name entries) = []) ∧
    (∀ q p name content, jsEndsWith name ".cs" = false →
      searchEntry q p (.file name content) = []) ∧
    (∀ q p name content, jsEndsWith name ".cs" = true →
      searchEntry q p (.file name content) =
        lineMatches (jsPathJoin p name) q (jsSplitLines content)) ∧
    (∀ fp q lines idx line, lines.get? idx = some line →
      ((∃ m ∈ lineMatches fp q lines, m.line = idx + 1) ↔
        jsIncludesCI line q = true)) ∧
    (∀ line q, jsIncludesCI line q = true ↔
      ∃ p t, line.data.map Char.toLower =
        p ++ q.data.map Char.toLower ++ t) := by
  refine ⟨?_, ?_, ?_, ?_, ?_⟩
  · rintro q p name entries (h | rfl | rfl)
    · simp [searchEntry, h]
    · simp [searchEntry]
    · simp [searchEntry]
  · intro q p name content h
    simp [searchEntry, h]
  · intro q p name content h
    simp [searchEntry, h]
  · intro fp q lines idx line hget
    exact lineMatches_line_iff fp q lines idx line hget
  · intro line q
    exact jsIncludesCI_iff line q

/-- C8 witness: a dot directory, a `bin` directory, a text file, a scanned
source file and a case-insensitive line test, each at concrete inputs. -/
theorem search_skips_and_filters_witness :
    searchEntry "needle" "root" (.dir ".git" [.file "a.cs" "needle"]) = [] ∧
    searchEntry "needle" "root" (.dir "bin" [.file "a.cs" "needle"]) = [] ∧
    searchEntry "needle" "root" (.file "a.txt" "needle") = [] ∧
    searchEntry "NeeDLE" "root" (.file "a.cs" "one needle line") =
      lineMatches "root/a.cs" "NeeDLE" (jsSplitLines "one needle line") ∧
    ((∃ m ∈ lineMatches "f" "EEd" ["xs", "needle"], m.line = 2) ↔
      jsIncludesCI "needle" "EEd" = true) :=
  ⟨search_skips_and_filters.1 "needle" "root" ".git" [.file "a.cs" "needle"]
     (Or.inl (by decide)),
   search_skips_and_filters.1 "needle" "root" "bin" [.file "a.cs" "needle"]
     (Or.inr (Or.inl rfl)),
   search_skips_and_filters.2.1 "needle" "root" "a.txt" "needle" (by decide),
   search_skips_and_filters.2.2.1 "NeeDLE" "root" "a.cs" "one needle line"
     (by decide),
   search_skips_and_filters.2.2.2.1 "f" "EEd" ["xs", "needle"] 1 "needle"
     (by decide)⟩

/-- C9: `clear-credentials` succeeds without attempting a delete when no
credentials file exists, deletes the file and succeeds when it exists and
the OS delete works, and reports failure with the OS message exactly when
the delete itself throws. -/
theorem clearCredentials_spec :
    (∀ u, clearCredentials u none = (none, ⟨true, none⟩)) ∧
    (∀ c, clearCredentials none (some c) = (none, ⟨true, none⟩)) ∧
    (∀ c e, clearCredentials (some e) (some c) = (some c, ⟨false, some e⟩)) :=
  ⟨fun _ => rfl, fun _ => rfl, fun _ _ => rfl⟩

/-- C10: `load-solution-path` reports success for every config-file state,
returning the stored path when the parsed config carries a non-empty one
and the empty string when the file is missing, unreadable, malformed, or
lacks the field. -/
theorem loadSolutionPath_always_success (f : Option (Option (Option String))) :
    (loadSolutionPath f).success = true ∧
    (∀ p, f = some (some (some p)) → p ≠ "" → (loadSolutionPath f).path = p) ∧
    ((∀ c, f ≠ some (some c)) → (loadSolutionPath f).path = "") ∧
    (f = some (some none) → (loadSolutionPath f).path = "") ∧
    (f = some (some (some "")) → (loadSolutionPath f).path = "") := by
  refine ⟨?_, ?_, ?_, ?_, ?_⟩
  · rcases f with _ | f
    · rfl
    · rcases f with _ | c
      · rfl
      · rfl
  · rintro p rfl hp
    simp [loadSolutionPath, jsOrEmptyString, hp]
  · intro hne
    rcases f with _ | f
    · rfl
    · rcases f with _ | c
      · rfl
      · exact absurd rfl (hne c)
  · rintro rfl
    rfl
  · rintro rfl
    rfl

/-- C10 witness: a parsed config with a stored path, and a missing file. -/
theorem loadSolutionPath_always_success_witness :
    (loadSolutionPath (some (some (some "C:/src")))).success = true ∧
    (loadSolutionPath (some (some (some "C:/src")))).path = "C:/src" ∧
    (loadSolutionPath none).path = "" :=
  ⟨(loadSolutionPath_always_success (some (some (some "C:/src")))).1,
   (loadSolutionPath_always_success (some (some (some "C:/src")))).2.1
     "C:/src" rfl (by decide),
   (loadSolutionPath_always_success none).2.2.1 (fun c h => by cases h)⟩

end Janus
